import Mathlib

/-!
# Verification of the GGompertz/NBD log-likelihood evaluator (src/src/ggomnbd_LL.cpp)

Shallow embedding over the reals of the C++ functions `integrationFunction`,
`ggomnbd_LL_ind`, `ggomnbd_nocov_LL_ind`, `ggomnbd_nocov_LL_sum`,
`ggomnbd_staticcov_LL_ind` and `ggomnbd_staticcov_LL_sum`.

Modelling conventions:
* Armadillo vectors become `List ℝ`; Armadillo matrices become a `Mat`
  structure carrying the column count and the list of rows.
* Every Armadillo operation that throws (out-of-bounds element access,
  `.max()`/`.min()` on an empty vector, size-mismatched elementwise
  arithmetic, bad `subvec` ranges, incompatible matrix-vector products)
  is modelled by `Option`: `none` is an aborted evaluation.  The guard of
  `ggomnbd_LL_ind` collects exactly the size conditions under which the
  C++ body runs to completion; which particular access throws first is
  not observable in the model, only success versus failure.
* The external GSL routine `gsl_integration_qags` is an opaque oracle,
  passed in as a parameter `quad` receiving exactly the arguments of the
  call site on source line 71: the integrand, the two interval endpoints,
  `epsabs = 1e-8`, `epsrel = 1e-8`, the subdivision-limit argument `0`,
  and the workspace size `1000` allocated on line 64.
* C `lgamma` is `log |Γ|`; C `pow`/`exp`/`log` on doubles become
  `Real.rpow`/`Real.exp`/`Real.log`.
* The two `Rcpp::Rcout` diagnostics of lines 54-58 do not touch the
  returned value; they are modelled as standalone predicates
  (`ggomnbd_warnBelow`, `ggomnbd_warnAbove`) over the same proxy
  quantities `below`/`above` the code computes on lines 49-50.
-/

namespace CLVTools

noncomputable section

abbrev Vec := List ℝ

/-- C `lgamma`: logarithm of the absolute value of the Gamma function. -/
def lgamma (x : ℝ) : ℝ := Real.log |Real.Gamma x|

/-- Source lines 17-22: the per-customer integrand
`(y + alpha_i)^-(r + x_i) * (beta_i + exp(b*y) - 1)^-(s+1) * exp(b*y)`.
The C version reads `alpha_i`, `beta_i`, `x_i` through globals indexed by
`globI`; here they are ordinary parameters (the globals are overwritten
with exactly customer `globI`'s data before each quadrature call). -/
def integrationFunction (r b s alpha_i beta_i x : ℝ) (y : ℝ) : ℝ :=
  (y + alpha_i) ^ (-(r + x)) * (beta_i + Real.exp (b * y) - 1) ^ (-(s + 1))
    * Real.exp (b * y)

/-- Type of the external quadrature oracle (`gsl_integration_qags`):
integrand, lower endpoint, upper endpoint, `epsabs`, `epsrel`,
subdivision-limit argument, workspace size. -/
abbrev Quad := (ℝ → ℝ) → ℝ → ℝ → ℝ → ℝ → ℕ → ℕ → ℝ

/-- Armadillo `.max()` on a nonempty vector (junk value 0 on the empty
vector, where the C++ call would throw; callers guard nonemptiness). -/
def vmaxD : Vec → ℝ
  | [] => 0
  | a :: l => l.foldl max a

/-- Armadillo `.min()` on a nonempty vector (junk value 0 on empty). -/
def vminD : Vec → ℝ
  | [] => 0
  | a :: l => l.foldl min a

/-- Source line 49: the batch-level lower-bound proxy
`pow(vT_x.max() + vAlpha_i.max(), -(r + vX.max())) *
 pow(vBeta_i.max() + exp(b*vT_x.max()) - 1, -(s+1)) * exp(b*vT_x.min())`. -/
def belowProxy (r b s : ℝ) (vAlpha_i vBeta_i vX vT_x : Vec) : ℝ :=
  (vmaxD vT_x + vmaxD vAlpha_i) ^ (-(r + vmaxD vX))
    * (vmaxD vBeta_i + Real.exp (b * vmaxD vT_x) - 1) ^ (-(s + 1))
    * Real.exp (b * vminD vT_x)

/-- Source line 50: the batch-level upper-bound proxy
`pow(vT_x.min() + vAlpha_i.min(), -(r + vX.max())) *
 pow(vBeta_i.min() + exp(b*vT_x.min()) - 1, -(s+1)) * exp(b*vT_x.max())`.
Note that it reuses `vX.max()`, not `vX.min()`. -/
def aboveProxy (r b s : ℝ) (vAlpha_i vBeta_i vX vT_x : Vec) : ℝ :=
  (vminD vT_x + vminD vAlpha_i) ^ (-(r + vmaxD vX))
    * (vminD vBeta_i + Real.exp (b * vminD vT_x) - 1) ^ (-(s + 1))
    * Real.exp (b * vmaxD vT_x)

/-- Source lines 54-55: the divergence-towards-minus-infinity diagnostic is
printed exactly when `below == 0.0`. -/
def ggomnbd_warnBelow (r b s : ℝ) (vAlpha_i vBeta_i vX vT_x : Vec) : Prop :=
  belowProxy r b s vAlpha_i vBeta_i vX vT_x = 0

/-- Source lines 57-58: the divergence-towards-plus-infinity diagnostic is
printed exactly when `above > pow(10,200)`. -/
def ggomnbd_warnAbove (r b s : ℝ) (vAlpha_i vBeta_i vX vT_x : Vec) : Prop :=
  aboveProxy r b s vAlpha_i vBeta_i vX vT_x > 10 ^ (200 : ℕ)

/-- Modelled from the spec's words for claim C8 only (comparison value, not
translated from the source): a lower-bound proxy "built from the batch maxima
of t_x, alpha_i, x_i and minima of t_x, beta_i", i.e. the source's `below`
with `vBeta_i.min()` in place of `vBeta_i.max()`. -/
def belowProxySpec (r b s : ℝ) (vAlpha_i vBeta_i vX vT_x : Vec) : ℝ :=
  (vmaxD vT_x + vmaxD vAlpha_i) ^ (-(r + vmaxD vX))
    * (vminD vBeta_i + Real.exp (b * vmaxD vT_x) - 1) ^ (-(s + 1))
    * Real.exp (b * vminD vT_x)

/-- The size conditions under which the body of `ggomnbd_LL_ind`
(source lines 36-96) runs to completion: the four vectors read by the
extrema heuristic on lines 49-50 are nonempty, the integration loop's
accesses `vT_x(globI)`, `vT_cal(globI)` for `globI < n` are in bounds,
and the vectorized arithmetic of lines 88-89 finds `vAlpha_i`, `vBeta_i`,
`vT_cal` of the common length `n = vX.n_elem`.  (Note `vT_x` only needs
length at least `n`: it does not occur on lines 88-89.) -/
abbrev llGuard (vAlpha_i vBeta_i vX vT_x vT_cal : Vec) : Prop :=
  0 < vX.length ∧ 0 < vT_x.length ∧ 0 < vAlpha_i.length ∧ 0 < vBeta_i.length ∧
    vX.length ≤ vT_x.length ∧ vAlpha_i.length = vX.length ∧
    vBeta_i.length = vX.length ∧ vT_cal.length = vX.length

/-- One customer's contribution, exactly as assembled on source lines
70-94: `tmp = lgamma(r + x) - lgamma(r)` (lines 80-85), the quadrature
call of line 71 with the argument list of the call site, the two linear
terms of lines 88-89, and the combination `log(exp(l1) + exp(l2))` of
line 94. -/
def LLentry (quad : Quad) (r b s alpha_i beta_i x t_x t_cal : ℝ) : ℝ :=
  let tmp := lgamma (r + x) - lgamma r
  let integral := quad (integrationFunction r b s alpha_i beta_i x) t_x t_cal
    (1e-8) (1e-8) 0 1000
  let l1 := tmp + (r * (Real.log alpha_i - Real.log (alpha_i + t_cal))
    + x * (0 - Real.log (alpha_i + t_cal))
    + s * (Real.log beta_i - Real.log (beta_i - 1 + Real.exp (b * t_cal))))
  let l2 := tmp + (Real.log b + r * Real.log alpha_i + Real.log s
    + s * Real.log beta_i + Real.log integral)
  Real.log (Real.exp l1 + Real.exp l2)

/-- Source lines 27-97, `ggomnbd_LL_ind`: per-customer log-likelihood.
Returns `none` exactly when one of the Armadillo operations of the body
would throw (see `llGuard`); otherwise the vector whose `i`-th entry is
`LLentry` of the shared scalars and customer `i`'s data. -/
def ggomnbd_LL_ind (quad : Quad) (r b s : ℝ)
    (vAlpha_i vBeta_i vX vT_x vT_cal : Vec) : Option Vec :=
  if llGuard vAlpha_i vBeta_i vX vT_x vT_cal then
    some (List.ofFn fun i : Fin vX.length =>
      LLentry quad r b s (vAlpha_i.getD (i : ℕ) 0) (vBeta_i.getD (i : ℕ) 0)
        (vX.getD (i : ℕ) 0) (vT_x.getD (i : ℕ) 0) (vT_cal.getD (i : ℕ) 0))
  else none

/-- Source lines 101-128, `ggomnbd_nocov_LL_ind`: decode the five
log-scale parameters (element accesses `vLogparams(0)` .. `vLogparams(4)`,
lines 106-110), fill constant `vAlpha_i`, `vBeta_i` (lines 117-120) and
delegate to `ggomnbd_LL_ind` (line 126). -/
def ggomnbd_nocov_LL_ind (quad : Quad) (vLogparams vX vT_x vT_cal : Vec) :
    Option Vec :=
  if 5 ≤ vLogparams.length then
    let r       := Real.exp (vLogparams.getD 0 0)
    let alpha_0 := Real.exp (vLogparams.getD 1 0)
    let b       := Real.exp (vLogparams.getD 2 0)
    let s       := Real.exp (vLogparams.getD 3 0)
    let beta_0  := Real.exp (vLogparams.getD 4 0)
    ggomnbd_LL_ind quad r b s (List.replicate vX.length alpha_0)
      (List.replicate vX.length beta_0) vX vT_x vT_cal
  else none

/-- Source lines 165-181, `ggomnbd_nocov_LL_sum`: the individual vector,
negated and summed (`-arma::sum(vLL)`, line 180). -/
def ggomnbd_nocov_LL_sum (quad : Quad) (vLogparams vX vT_x vT_cal : Vec) :
    Option ℝ :=
  (ggomnbd_nocov_LL_ind quad vLogparams vX vT_x vT_cal).map fun vLL => -vLL.sum

/-- Armadillo matrix: column count plus list of rows. -/
structure Mat where
  cols : ℕ
  rows : List Vec

/-- Dot product (used to model Armadillo matrix-vector products). -/
def dot (u v : Vec) : ℝ := (List.zipWith (fun a c => a * c) u v).sum

/-- Armadillo scalar-matrix product `m * c`. -/
def matScale (c : ℝ) (m : Mat) : Mat :=
  ⟨m.cols, m.rows.map (List.map fun a => c * a)⟩

/-- Armadillo matrix-vector product: throws unless the vector's length
matches the column count. -/
def matvec (m : Mat) (v : Vec) : Option Vec :=
  if v.length = m.cols then some (m.rows.map fun row => dot row v) else none

/-- Armadillo `v.subvec(first, last)`: throws unless
`first <= last && last < n_elem`. -/
def subvec (v : Vec) (first last : ℕ) : Option Vec :=
  if first ≤ last ∧ last < v.length then
    some ((v.drop first).take (last + 1 - first))
  else none

/-- The decoded parameters of the static-covariate variant. -/
structure GGomParams where
  r : ℝ
  alpha_0 : ℝ
  b : ℝ
  s : ℝ
  beta_0 : ℝ
  vAlpha_i : Vec
  vBeta_i : Vec

/-- Source lines 237-259 of `ggomnbd_staticcov_LL_ind`: decode the five
log-scale model parameters (lines 237-241), slice the coefficient vectors
`vParams.subvec(5, 5+k_life-1)` and `vParams.subvec(5+k_life,
5+k_life+k_trans-1)` (lines 247-248), and build
`vAlpha_i = alpha_0 * exp((mCov_trans * (-1)) * vTrans_params)`,
`vBeta_i = beta_0 * exp((mCov_life * (-1)) * vLife_params)` (lines 258-259). -/
def ggomnbd_staticcov_params (vParams : Vec) (mCov_life mCov_trans : Mat) :
    Option GGomParams :=
  if 5 ≤ vParams.length then
    let r       := Real.exp (vParams.getD 0 0)
    let alpha_0 := Real.exp (vParams.getD 1 0)
    let b       := Real.exp (vParams.getD 2 0)
    let s       := Real.exp (vParams.getD 3 0)
    let beta_0  := Real.exp (vParams.getD 4 0)
    match subvec vParams 5 (5 + mCov_life.cols - 1),
        subvec vParams (5 + mCov_life.cols)
          (5 + mCov_life.cols + mCov_trans.cols - 1) with
    | some vLife_params, some vTrans_params =>
      match matvec (matScale (-1) mCov_trans) vTrans_params,
          matvec (matScale (-1) mCov_life) vLife_params with
      | some wTrans, some wLife =>
        some ⟨r, alpha_0, b, s, beta_0,
          wTrans.map (fun t => alpha_0 * Real.exp t),
          wLife.map (fun t => beta_0 * Real.exp t)⟩
      | _, _ => none
    | _, _ => none
  else none

/-- Source lines 223-274, `ggomnbd_staticcov_LL_ind`: decode, then
delegate to `ggomnbd_LL_ind` (line 273). -/
def ggomnbd_staticcov_LL_ind (quad : Quad) (vParams vX vT_x vT_cal : Vec)
    (mCov_life mCov_trans : Mat) : Option Vec :=
  match ggomnbd_staticcov_params vParams mCov_life mCov_trans with
  | some gp => ggomnbd_LL_ind quad gp.r gp.b gp.s gp.vAlpha_i gp.vBeta_i
      vX vT_x vT_cal
  | none => none

/-- Source lines 327-338, `ggomnbd_staticcov_LL_sum`: the individual
vector, negated and summed (line 337). -/
def ggomnbd_staticcov_LL_sum (quad : Quad) (vParams vX vT_x vT_cal : Vec)
    (mCov_life mCov_trans : Mat) : Option ℝ :=
  (ggomnbd_staticcov_LL_ind quad vParams vX vT_x vT_cal mCov_life
    mCov_trans).map fun vLL => -vLL.sum

/-! ## Helper lemmas (shared by several claims) -/

theorem getD_ofFn {n : ℕ} (f : Fin n → ℝ) (i : ℕ) (h : i < n) :
    (List.ofFn f).getD i 0 = f ⟨i, h⟩ := by
  rw [List.getD_eq_getElem _ _ (by simpa using h), List.getElem_ofFn]

theorem log_exp_add_exp_congr {a a2 c c2 : ℝ} (h1 : a = a2) (h2 : c = c2) :
    Real.log (Real.exp a + Real.exp c)
      = Real.log (Real.exp a2 + Real.exp c2) := by
  rw [h1, h2]

theorem log_exp_add_exp (a c : ℝ) :
    Real.log (Real.exp a + Real.exp c)
      = max a c + Real.log (1 + Real.exp (-|a - c|)) := by
  rcases le_total c a with h | h
  · rw [max_eq_left h, abs_of_nonneg (sub_nonneg.mpr h)]
    have h1 : Real.exp a + Real.exp c
        = Real.exp a * (1 + Real.exp (-(a - c))) := by
      rw [mul_add, mul_one, ← Real.exp_add]
      have h2 : a + -(a - c) = c := by ring
      rw [h2]
    rw [h1, Real.log_mul (Real.exp_ne_zero a) (by positivity), Real.log_exp]
  · rw [max_eq_right h, abs_sub_comm, abs_of_nonneg (sub_nonneg.mpr h),
      add_comm (Real.exp a)]
    have h1 : Real.exp c + Real.exp a
        = Real.exp c * (1 + Real.exp (-(c - a))) := by
      rw [mul_add, mul_one, ← Real.exp_add]
      have h2 : c + -(c - a) = a := by ring
      rw [h2]
    rw [h1, Real.log_mul (Real.exp_ne_zero c) (by positivity), Real.log_exp]

/-! ## Claims -/

/-- C1: for every customer `i` the per-customer log-likelihood is
`LL_i = log(exp(L1_i) + exp(L2_i))` with the common term
`G = lgamma(r + x_i) - lgamma(r)`,
`L1_i = G + r*(log(alpha_i) - log(alpha_i + t_cal_i)) - x_i*log(alpha_i + t_cal_i)
      + s*(log(beta_i) - log(beta_i - 1 + exp(b*t_cal_i)))` and
`L2_i = G + log(b) + r*log(alpha_i) + log(s) + s*log(beta_i) + log(Integral_i)`,
where `Integral_i` is the value returned by the quadrature call for
customer `i`. -/
theorem claim_C1_per_customer_LL (quad : Quad) (r b s : ℝ)
    (vAlpha_i vBeta_i vX vT_x vT_cal : Vec)
    (h : llGuard vAlpha_i vBeta_i vX vT_x vT_cal) :
    ggomnbd_LL_ind quad r b s vAlpha_i vBeta_i vX vT_x vT_cal =
      some (List.ofFn fun i : Fin vX.length =>
        let alpha_i := vAlpha_i.getD (i : ℕ) 0
        let beta_i := vBeta_i.getD (i : ℕ) 0
        let x := vX.getD (i : ℕ) 0
        let t_cal := vT_cal.getD (i : ℕ) 0
        let G := lgamma (r + x) - lgamma r
        let Integral := quad (integrationFunction r b s alpha_i beta_i x)
          (vT_x.getD (i : ℕ) 0) t_cal (1e-8) (1e-8) 0 1000
        let L1 := G + r * (Real.log alpha_i - Real.log (alpha_i + t_cal))
          - x * Real.log (alpha_i + t_cal)
          + s * (Real.log beta_i - Real.log (beta_i - 1 + Real.exp (b * t_cal)))
        let L2 := G + Real.log b + r * Real.log alpha_i + Real.log s
          + s * Real.log beta_i + Real.log Integral
        Real.log (Real.exp L1 + Real.exp L2)) := by
  rw [ggomnbd_LL_ind, if_pos h]
  refine congrArg some (congrArg List.ofFn (funext fun i => ?_))
  dsimp only [LLentry]
  exact log_exp_add_exp_congr (by ring) (by ring)

/-- C1 witness: a concrete one-customer batch satisfying the guard. -/
theorem claim_C1_witness :
    llGuard [1] [1] [0] [0] [1] ∧
    (ggomnbd_LL_ind (fun _ _ _ _ _ _ _ => 1) 1 1 1
      [1] [1] [0] [0] [1]).isSome = true := by
  have h : llGuard [(1 : ℝ)] [1] [0] [0] [1] := by simp [llGuard]
  refine ⟨h, ?_⟩
  rw [claim_C1_per_customer_LL (fun _ _ _ _ _ _ _ => 1) 1 1 1 [1] [1] [0] [0] [1] h]
  rfl

/-- C2 (supporting theorem for the code-bug finding): in exact real
arithmetic the value the code computes on line 94, `log(exp(l1)+exp(l2))`,
coincides with the stabilized form `max(l1,l2) + log1p(exp(-|l1-l2|))`;
the two expressions differ only in IEEE double evaluation, where the code's
naive form overflows.  The code evaluates the naive form, not the
stabilized one. -/
theorem claim_C2_stabilized_equals_naive (quad : Quad) (r b s : ℝ)
    (vAlpha_i vBeta_i vX vT_x vT_cal : Vec)
    (h : llGuard vAlpha_i vBeta_i vX vT_x vT_cal) :
    ggomnbd_LL_ind quad r b s vAlpha_i vBeta_i vX vT_x vT_cal =
      some (List.ofFn fun i : Fin vX.length =>
        let tmp := lgamma (r + vX.getD (i : ℕ) 0) - lgamma r
        let integral := quad (integrationFunction r b s (vAlpha_i.getD (i : ℕ) 0)
          (vBeta_i.getD (i : ℕ) 0) (vX.getD (i : ℕ) 0)) (vT_x.getD (i : ℕ) 0)
          (vT_cal.getD (i : ℕ) 0) (1e-8) (1e-8) 0 1000
        let l1 := tmp + (r * (Real.log (vAlpha_i.getD (i : ℕ) 0)
            - Real.log (vAlpha_i.getD (i : ℕ) 0 + vT_cal.getD (i : ℕ) 0))
          + vX.getD (i : ℕ) 0 * (0 - Real.log (vAlpha_i.getD (i : ℕ) 0 + vT_cal.getD (i : ℕ) 0))
          + s * (Real.log (vBeta_i.getD (i : ℕ) 0)
            - Real.log (vBeta_i.getD (i : ℕ) 0 - 1 + Real.exp (b * vT_cal.getD (i : ℕ) 0))))
        let l2 := tmp + (Real.log b + r * Real.log (vAlpha_i.getD (i : ℕ) 0)
          + Real.log s + s * Real.log (vBeta_i.getD (i : ℕ) 0) + Real.log integral)
        max l1 l2 + Real.log (1 + Real.exp (-|l1 - l2|))) := by
  rw [ggomnbd_LL_ind, if_pos h]
  refine congrArg some (congrArg List.ofFn (funext fun i => ?_))
  dsimp only [LLentry]
  exact log_exp_add_exp _ _

/-- C2 witness: a concrete one-customer batch satisfying the guard. -/
theorem claim_C2_witness :
    llGuard [1] [1] [0] [0] [2] ∧
    (ggomnbd_LL_ind (fun _ _ _ _ _ _ _ => 1) 1 1 1
      [1] [1] [0] [0] [2]).isSome = true := by
  have h : llGuard [(1 : ℝ)] [1] [0] [0] [2] := by simp [llGuard]
  refine ⟨h, ?_⟩
  rw [claim_C2_stabilized_equals_naive (fun _ _ _ _ _ _ _ => 1) 1 1 1
    [1] [1] [0] [0] [2] h]
  rfl

/-- C3 (supporting theorem for the code-bug finding): the integral stored
for customer `i` is the quadrature oracle applied to the claim's integrand
over `[t_x_i, t_cal_i]` with `epsabs = epsrel = 1e-8`, a workspace of 1000
subintervals, but a subdivision-limit argument of `0` (not 1000);
moreover the evaluator's result depends on the oracle only through calls
whose limit argument is `0`, so no call with limit 1000 is ever made, and
no warning of any kind is attached to the quadrature outcome. -/
theorem claim_C3_quadrature_call (quad quad2 : Quad) (r b s : ℝ)
    (vAlpha_i vBeta_i vX vT_x vT_cal : Vec)
    (h : llGuard vAlpha_i vBeta_i vX vT_x vT_cal)
    (hq : ∀ f a c ea er w, quad f a c ea er 0 w = quad2 f a c ea er 0 w) :
    (ggomnbd_LL_ind quad r b s vAlpha_i vBeta_i vX vT_x vT_cal =
      some (List.ofFn fun i : Fin vX.length =>
        let integral := quad
          (integrationFunction r b s (vAlpha_i.getD (i : ℕ) 0)
            (vBeta_i.getD (i : ℕ) 0) (vX.getD (i : ℕ) 0))
          (vT_x.getD (i : ℕ) 0) (vT_cal.getD (i : ℕ) 0) (1e-8) (1e-8) 0 1000
        let tmp := lgamma (r + vX.getD (i : ℕ) 0) - lgamma r
        Real.log (Real.exp (tmp + (r * (Real.log (vAlpha_i.getD (i : ℕ) 0)
            - Real.log (vAlpha_i.getD (i : ℕ) 0 + vT_cal.getD (i : ℕ) 0))
          + vX.getD (i : ℕ) 0 * (0 - Real.log (vAlpha_i.getD (i : ℕ) 0 + vT_cal.getD (i : ℕ) 0))
          + s * (Real.log (vBeta_i.getD (i : ℕ) 0)
            - Real.log (vBeta_i.getD (i : ℕ) 0 - 1 + Real.exp (b * vT_cal.getD (i : ℕ) 0)))))
          + Real.exp (tmp + (Real.log b + r * Real.log (vAlpha_i.getD (i : ℕ) 0)
            + Real.log s + s * Real.log (vBeta_i.getD (i : ℕ) 0) + Real.log integral)))))
    ∧ ggomnbd_LL_ind quad r b s vAlpha_i vBeta_i vX vT_x vT_cal
      = ggomnbd_LL_ind quad2 r b s vAlpha_i vBeta_i vX vT_x vT_cal := by
  constructor
  · rw [ggomnbd_LL_ind, if_pos h]
    refine congrArg some (congrArg List.ofFn (funext fun i => ?_))
    dsimp only [LLentry]
  · rw [ggomnbd_LL_ind, ggomnbd_LL_ind, if_pos h, if_pos h]
    refine congrArg some (congrArg List.ofFn (funext fun i => ?_))
    dsimp only [LLentry]
    rw [hq]

/-- C3 witness: a concrete batch satisfying the guard, with two oracles
agreeing on limit-0 calls. -/
theorem claim_C3_witness :
    llGuard [1] [1] [0] [0] [1] ∧
    (ggomnbd_LL_ind (fun _ _ _ _ _ _ _ => 1) 1 1 1 [1] [1] [0] [0] [1]
      = ggomnbd_LL_ind (fun _ _ _ _ _ l _ => if l = 0 then 1 else 2) 1 1 1
        [1] [1] [0] [0] [1]) := by
  have h : llGuard [(1 : ℝ)] [1] [0] [0] [1] := by simp [llGuard]
  exact ⟨h, (claim_C3_quadrature_call (fun _ _ _ _ _ _ _ => 1)
    (fun _ _ _ _ _ l _ => if l = 0 then 1 else 2) 1 1 1 [1] [1] [0] [0] [1] h
    (fun _ _ _ _ _ _ => by simp)).2⟩

/-- C5: for both model variants the Sum entry point returns exactly the
negated sum of the per-customer vector of the corresponding individual
entry point on the same inputs (and fails exactly when it fails). -/
theorem claim_C5_sum_is_negated_sum (quad : Quad) (p vX vT_x vT_cal : Vec)
    (mCov_life mCov_trans : Mat) :
    ggomnbd_nocov_LL_sum quad p vX vT_x vT_cal
        = (ggomnbd_nocov_LL_ind quad p vX vT_x vT_cal).map (fun v => -v.sum)
      ∧ ggomnbd_staticcov_LL_sum quad p vX vT_x vT_cal mCov_life mCov_trans
        = (ggomnbd_staticcov_LL_ind quad p vX vT_x vT_cal mCov_life
            mCov_trans).map (fun v => -v.sum) :=
  ⟨rfl, rfl⟩

/-- C10: on the empty batch (`x`, `t_x`, `t_cal` all empty) every entry
point fails — the individual evaluators do not return an empty vector and
the Sum evaluators do not return 0 — because the pre-integration
heuristic takes `.max()`/`.min()` of empty vectors. -/
theorem claim_C10_empty_batch_fails (quad : Quad) (p : Vec)
    (mCov_life mCov_trans : Mat) :
    ggomnbd_nocov_LL_ind quad p [] [] [] = none ∧
    ggomnbd_nocov_LL_sum quad p [] [] [] = none ∧
    ggomnbd_staticcov_LL_ind quad p [] [] [] mCov_life mCov_trans = none ∧
    ggomnbd_staticcov_LL_sum quad p [] [] [] mCov_life mCov_trans = none := by
  have hLL : ∀ r b s vα vβ, ggomnbd_LL_ind quad r b s vα vβ [] [] [] = none := by
    intro r b s vα vβ
    rw [ggomnbd_LL_ind, if_neg]
    simp [llGuard]
  have h1 : ggomnbd_nocov_LL_ind quad p [] [] [] = none := by
    rw [ggomnbd_nocov_LL_ind]
    split
    · exact hLL _ _ _ _ _
    · rfl
  have h3 : ggomnbd_staticcov_LL_ind quad p [] [] [] mCov_life mCov_trans = none := by
    unfold ggomnbd_staticcov_LL_ind
    cases ggomnbd_staticcov_params p mCov_life mCov_trans with
    | none => rfl
    | some gp => exact hLL _ _ _ _ _
  refine ⟨h1, ?_, h3, ?_⟩
  · rw [ggomnbd_nocov_LL_sum, h1]; rfl
  · rw [ggomnbd_staticcov_LL_sum, h3]; rfl

/-- C9: the evaluator is deterministic (it is a pure function of its
inputs in this embedding; the C++ globals are overwritten with exactly
customer `i`'s data before each integration) and the `i`-th output entry
depends only on the shared scalars `r`, `b`, `s` and customer `i`'s own
data: two batches that agree at index `i` on `alpha_i`, `beta_i`, `x_i`,
`t_x_i`, `t_cal_i` yield the same `i`-th entry, whatever the other
customers' data. -/
theorem claim_C9_entry_independence (quad : Quad) (r b s : ℝ)
    (vA vB vx vtx vtc vA2 vB2 vx2 vtx2 vtc2 : Vec) (i : ℕ)
    (h : llGuard vA vB vx vtx vtc) (h2 : llGuard vA2 vB2 vx2 vtx2 vtc2)
    (hi : i < vx.length) (hi2 : i < vx2.length)
    (ea : vA.getD i 0 = vA2.getD i 0) (eb : vB.getD i 0 = vB2.getD i 0)
    (ex : vx.getD i 0 = vx2.getD i 0) (etx : vtx.getD i 0 = vtx2.getD i 0)
    (etc2 : vtc.getD i 0 = vtc2.getD i 0) :
    ∃ L L2, ggomnbd_LL_ind quad r b s vA vB vx vtx vtc = some L
      ∧ ggomnbd_LL_ind quad r b s vA2 vB2 vx2 vtx2 vtc2 = some L2
      ∧ L.getD i 0 = L2.getD i 0 := by
  refine ⟨_, _, (by rw [ggomnbd_LL_ind, if_pos h]),
    (by rw [ggomnbd_LL_ind, if_pos h2]), ?_⟩
  rw [getD_ofFn _ i hi, getD_ofFn _ i hi2]
  show LLentry quad r b s (vA.getD i 0) (vB.getD i 0) (vx.getD i 0)
      (vtx.getD i 0) (vtc.getD i 0)
    = LLentry quad r b s (vA2.getD i 0) (vB2.getD i 0) (vx2.getD i 0)
      (vtx2.getD i 0) (vtc2.getD i 0)
  rw [ea, eb, ex, etx, etc2]

/-- C9 witness: two two-customer batches that differ in customer 1's data
but agree on customer 0. -/
theorem claim_C9_witness :
    llGuard [1, 2] [1, 2] [0, 5] [0, 1] [1, 3] ∧
    llGuard [1, 4] [1, 9] [0, 7] [0, 2] [1, 8] ∧
    (∃ L L2,
      ggomnbd_LL_ind (fun _ _ _ _ _ _ _ => 1) 1 1 1 [1, 2] [1, 2] [0, 5] [0, 1] [1, 3]
        = some L
      ∧ ggomnbd_LL_ind (fun _ _ _ _ _ _ _ => 1) 1 1 1 [1, 4] [1, 9] [0, 7] [0, 2] [1, 8]
        = some L2
      ∧ L.getD 0 0 = L2.getD 0 0) := by
  refine ⟨by simp [llGuard], by simp [llGuard], ?_⟩
  exact claim_C9_entry_independence (fun _ _ _ _ _ _ _ => 1) 1 1 1
    [1, 2] [1, 2] [0, 5] [0, 1] [1, 3] [1, 4] [1, 9] [0, 7] [0, 2] [1, 8] 0
    (by simp [llGuard]) (by simp [llGuard]) (by simp) (by simp)
    rfl rfl rfl rfl rfl

/-- C7: every decoded scalar (`r`, `alpha_0`, `b`, `s`, `beta_0`) and
every per-customer scale parameter
`alpha_i = alpha_0 * exp(-cov_trans_i . theta_trans)`,
`beta_i = beta_0 * exp(-cov_life_i . theta_life)` produced by the
static-covariate decode is strictly positive, for every real-valued
parameter vector and covariate data of consistent dimensions. -/
theorem claim_C7_decoded_positivity (vParams : Vec) (mCov_life mCov_trans : Mat)
    (hkl : 1 ≤ mCov_life.cols) (hkt : 1 ≤ mCov_trans.cols)
    (hlen : 5 + mCov_life.cols + mCov_trans.cols ≤ vParams.length) :
    ∃ gp, ggomnbd_staticcov_params vParams mCov_life mCov_trans = some gp
      ∧ 0 < gp.r ∧ 0 < gp.alpha_0 ∧ 0 < gp.b ∧ 0 < gp.s ∧ 0 < gp.beta_0
      ∧ (∀ a ∈ gp.vAlpha_i, 0 < a) ∧ (∀ c ∈ gp.vBeta_i, 0 < c) := by
  have h5 : 5 ≤ vParams.length := by omega
  have hs1 : subvec vParams 5 (5 + mCov_life.cols - 1)
      = some ((vParams.drop 5).take (5 + mCov_life.cols - 1 + 1 - 5)) := by
    rw [subvec, if_pos ⟨by omega, by omega⟩]
  have hs2 : subvec vParams (5 + mCov_life.cols)
      (5 + mCov_life.cols + mCov_trans.cols - 1)
      = some ((vParams.drop (5 + mCov_life.cols)).take
          (5 + mCov_life.cols + mCov_trans.cols - 1 + 1 - (5 + mCov_life.cols))) := by
    rw [subvec, if_pos ⟨by omega, by omega⟩]
  have hmv : ∀ (m : Mat) (v : Vec), v.length = m.cols →
      matvec (matScale (-1) m) v
        = some ((matScale (-1) m).rows.map fun row => dot row v) := by
    intro m v hv
    rw [matvec, if_pos (show v.length = (matScale (-1) m).cols from hv)]
  have hl1 : ((vParams.drop 5).take (5 + mCov_life.cols - 1 + 1 - 5)).length
      = mCov_life.cols := by
    simp only [List.length_take, List.length_drop]
    omega
  have hl2 : ((vParams.drop (5 + mCov_life.cols)).take
      (5 + mCov_life.cols + mCov_trans.cols - 1 + 1 - (5 + mCov_life.cols))).length
      = mCov_trans.cols := by
    simp only [List.length_take, List.length_drop]
    omega
  rw [ggomnbd_staticcov_params, if_pos h5, hs1, hs2]
  dsimp only
  rw [hmv _ _ hl2, hmv _ _ hl1]
  dsimp only
  refine ⟨_, rfl, Real.exp_pos _, Real.exp_pos _, Real.exp_pos _,
    Real.exp_pos _, Real.exp_pos _, ?_, ?_⟩
  · intro a ha
    simp only [List.mem_map] at ha
    obtain ⟨t, -, rfl⟩ := ha
    exact mul_pos (Real.exp_pos _) (Real.exp_pos _)
  · intro c hc
    simp only [List.mem_map] at hc
    obtain ⟨t, -, rfl⟩ := hc
    exact mul_pos (Real.exp_pos _) (Real.exp_pos _)

/-- C7 witness: one covariate column of each kind, seven parameters. -/
theorem claim_C7_witness :
    1 ≤ (Mat.mk 1 [[2]]).cols ∧ 1 ≤ (Mat.mk 1 [[3]]).cols ∧
    5 + (Mat.mk 1 [[2]]).cols + (Mat.mk 1 [[3]]).cols
      ≤ ([0, 0, 0, 0, 0, 1, 1] : Vec).length ∧
    (∃ gp, ggomnbd_staticcov_params [0, 0, 0, 0, 0, 1, 1]
        (Mat.mk 1 [[2]]) (Mat.mk 1 [[3]]) = some gp
      ∧ 0 < gp.r ∧ 0 < gp.alpha_0 ∧ 0 < gp.b ∧ 0 < gp.s ∧ 0 < gp.beta_0
      ∧ (∀ a ∈ gp.vAlpha_i, 0 < a) ∧ (∀ c ∈ gp.vBeta_i, 0 < c)) := by
  refine ⟨by decide, by decide, by simp, ?_⟩
  exact claim_C7_decoded_positivity [0, 0, 0, 0, 0, 1, 1]
    (Mat.mk 1 [[2]]) (Mat.mk 1 [[3]]) (by decide) (by decide) (by simp)

/-- C8 counterexample: at the concrete batch `r = b = s = 1`,
`alpha = [1,1]`, `beta = [1,2]`, `x = [0,0]`, `t_x = [0,0]`, the
lower-bound proxy the code computes on line 49 (which uses
`vBeta_i.max()`) is `1/4`, while the proxy the claim describes (built
from the minima of `t_x, beta_i`) is `1`: the claim misstates which
extremum of `beta_i` enters the lower-bound proxy. -/
theorem claim_C8_counterexample :
    belowProxy 1 1 1 [1, 1] [1, 2] [0, 0] [0, 0]
      ≠ belowProxySpec 1 1 1 [1, 1] [1, 2] [0, 0] [0, 0] := by
  have hb : vmaxD [(1 : ℝ), 2] = 2 := by norm_num [vmaxD, max_def]
  have hbm : vminD [(1 : ℝ), 2] = 1 := by norm_num [vminD, min_def]
  have ha : vmaxD [(1 : ℝ), 1] = 1 := by norm_num [vmaxD, max_def]
  have hx : vmaxD [(0 : ℝ), 0] = 0 := by norm_num [vmaxD, max_def]
  have htm : vminD [(0 : ℝ), 0] = 0 := by norm_num [vminD, min_def]
  have e2 : (2 : ℝ) ^ (-((1 : ℝ) + 1)) = 1 / 4 := by
    rw [show (-((1 : ℝ) + 1)) = ((-2 : ℤ) : ℝ) by norm_num, Real.rpow_intCast]
    norm_num
  rw [belowProxy, belowProxySpec, hb, hbm, ha, hx, htm]
  rw [show ((0 : ℝ) + 1) = 1 by norm_num, Real.one_rpow]
  rw [show (1 : ℝ) * 0 = 0 by norm_num, Real.exp_zero]
  rw [show ((2 : ℝ) + 1 - 1) = 2 by norm_num, show ((1 : ℝ) + 1 - 1) = 1 by norm_num]
  rw [Real.one_rpow, e2]
  norm_num

/-- C8 amended: the heuristic is batch-level and evaluated once before
integration, but the lower-bound proxy is built from the batch maxima of
`t_x`, `alpha_i`, `x_i` and `beta_i` together with the minimum of `t_x`
(not the minimum of `beta_i`), and the upper-bound proxy from the minima
of `t_x`, `alpha_i`, `beta_i` together with the maxima of `x_i` and
`t_x`; the divergence-to-`-∞` warning fires exactly when the lower proxy
equals zero, the divergence-to-`+∞` warning exactly when the upper proxy
exceeds `1e200`, and the returned vector is given by a proxy-free
formula, so neither warning alters the numeric result. -/
theorem claim_C8_amended (quad : Quad) (r b s : ℝ)
    (vAlpha_i vBeta_i vX vT_x vT_cal : Vec)
    (h : llGuard vAlpha_i vBeta_i vX vT_x vT_cal) :
    (ggomnbd_warnBelow r b s vAlpha_i vBeta_i vX vT_x ↔
      (vmaxD vT_x + vmaxD vAlpha_i) ^ (-(r + vmaxD vX))
        * (vmaxD vBeta_i + Real.exp (b * vmaxD vT_x) - 1) ^ (-(s + 1))
        * Real.exp (b * vminD vT_x) = 0)
    ∧ (ggomnbd_warnAbove r b s vAlpha_i vBeta_i vX vT_x ↔
      (vminD vT_x + vminD vAlpha_i) ^ (-(r + vmaxD vX))
        * (vminD vBeta_i + Real.exp (b * vminD vT_x) - 1) ^ (-(s + 1))
        * Real.exp (b * vmaxD vT_x) > 10 ^ (200 : ℕ))
    ∧ ggomnbd_LL_ind quad r b s vAlpha_i vBeta_i vX vT_x vT_cal
      = some (List.ofFn fun i : Fin vX.length =>
          LLentry quad r b s (vAlpha_i.getD (i : ℕ) 0) (vBeta_i.getD (i : ℕ) 0)
            (vX.getD (i : ℕ) 0) (vT_x.getD (i : ℕ) 0) (vT_cal.getD (i : ℕ) 0)) :=
  ⟨Iff.rfl, Iff.rfl, by rw [ggomnbd_LL_ind, if_pos h]⟩

/-- C8 witness: a concrete batch satisfying the guard. -/
theorem claim_C8_witness :
    llGuard [1] [1] [0] [0] [3] ∧
    (ggomnbd_LL_ind (fun _ _ _ _ _ _ _ => 1) 1 1 1 [1] [1] [0] [0] [3]).isSome
      = true := by
  have h : llGuard [(1 : ℝ)] [1] [0] [0] [3] := by simp [llGuard]
  refine ⟨h, ?_⟩
  rw [(claim_C8_amended (fun _ _ _ _ _ _ _ => 1) 1 1 1 [1] [1] [0] [0] [3] h).2.2]
  rfl

/-! ## Helper lemmas for C6 -/

theorem dot_replicate_zero (u : Vec) (k : ℕ) : dot u (List.replicate k 0) = 0 := by
  induction u generalizing k with
  | nil => simp [dot]
  | cons a u ih =>
    cases k with
    | zero => simp [dot]
    | succ k =>
      have h := ih k
      simp only [dot, List.replicate_succ, List.zipWith_cons_cons, List.sum_cons,
        mul_zero] at h ⊢
      rw [h, add_zero]

theorem map_dot_replicate_zero_exp (rows : List Vec) (k : ℕ) (c : ℝ) :
    ((rows.map fun row => dot row (List.replicate k 0)).map fun t => c * Real.exp t)
      = List.replicate rows.length c := by
  rw [List.map_map]
  refine List.eq_replicate_iff.mpr ⟨by simp, ?_⟩
  intro x hx
  simp only [List.mem_map, Function.comp] at hx
  obtain ⟨row, -, rfl⟩ := hx
  rw [dot_replicate_zero, Real.exp_zero, mul_one]

/-- C6: calling the static-covariate evaluator with all-zero coefficient
vectors (and consistent covariate data: at least one column each, one row
per customer) produces exactly the per-customer result of the
no-covariate evaluator with the same five log-scale parameters. -/
theorem claim_C6_covariate_collapse (quad : Quad)
    (vLogparams vX vT_x vT_cal : Vec) (mCov_life mCov_trans : Mat)
    (hlp : vLogparams.length = 5)
    (hkl : 1 ≤ mCov_life.cols) (hkt : 1 ≤ mCov_trans.cols)
    (hrl : mCov_life.rows.length = vX.length)
    (hrt : mCov_trans.rows.length = vX.length) :
    ggomnbd_staticcov_LL_ind quad
        (vLogparams ++ List.replicate (mCov_life.cols + mCov_trans.cols) 0)
        vX vT_x vT_cal mCov_life mCov_trans
      = ggomnbd_nocov_LL_ind quad vLogparams vX vT_x vT_cal := by
  have hplen : (vLogparams
      ++ List.replicate (mCov_life.cols + mCov_trans.cols) (0 : ℝ)).length
      = 5 + mCov_life.cols + mCov_trans.cols := by
    simp [hlp]
    omega
  have hget : ∀ i, i < 5 →
      (vLogparams ++ List.replicate (mCov_life.cols + mCov_trans.cols) (0 : ℝ)).getD i 0
        = vLogparams.getD i 0 :=
    fun i hi => List.getD_append _ _ 0 i (by omega)
  have hdrop5 : (vLogparams
      ++ List.replicate (mCov_life.cols + mCov_trans.cols) (0 : ℝ)).drop 5
      = List.replicate (mCov_life.cols + mCov_trans.cols) 0 :=
    List.drop_left' hlp
  have hs1 : subvec (vLogparams
      ++ List.replicate (mCov_life.cols + mCov_trans.cols) (0 : ℝ))
      5 (5 + mCov_life.cols - 1) = some (List.replicate mCov_life.cols 0) := by
    rw [subvec, if_pos ⟨by omega, by omega⟩, hdrop5]
    rw [show 5 + mCov_life.cols - 1 + 1 - 5 = mCov_life.cols by omega,
      List.take_replicate]
    rw [show min mCov_life.cols (mCov_life.cols + mCov_trans.cols)
      = mCov_life.cols by omega]
  have hdropkl : (vLogparams
      ++ List.replicate (mCov_life.cols + mCov_trans.cols) (0 : ℝ)).drop
        (5 + mCov_life.cols)
      = List.replicate mCov_trans.cols 0 := by
    rw [← List.drop_drop, hdrop5, List.drop_replicate]
    rw [show mCov_life.cols + mCov_trans.cols - mCov_life.cols
      = mCov_trans.cols by omega]
  have hs2 : subvec (vLogparams
      ++ List.replicate (mCov_life.cols + mCov_trans.cols) (0 : ℝ))
      (5 + mCov_life.cols) (5 + mCov_life.cols + mCov_trans.cols - 1)
      = some (List.replicate mCov_trans.cols 0) := by
    rw [subvec, if_pos ⟨by omega, by omega⟩, hdropkl]
    rw [show 5 + mCov_life.cols + mCov_trans.cols - 1 + 1 - (5 + mCov_life.cols)
      = mCov_trans.cols by omega, List.take_replicate]
    rw [show min mCov_trans.cols mCov_trans.cols = mCov_trans.cols by omega]
  have hmvT : matvec (matScale (-1) mCov_trans) (List.replicate mCov_trans.cols 0)
      = some ((matScale (-1) mCov_trans).rows.map
          fun row => dot row (List.replicate mCov_trans.cols 0)) := by
    rw [matvec, if_pos]
    exact List.length_replicate _ _
  have hmvL : matvec (matScale (-1) mCov_life) (List.replicate mCov_life.cols 0)
      = some ((matScale (-1) mCov_life).rows.map
          fun row => dot row (List.replicate mCov_life.cols 0)) := by
    rw [matvec, if_pos]
    exact List.length_replicate _ _
  have hgp : ggomnbd_staticcov_params
      (vLogparams ++ List.replicate (mCov_life.cols + mCov_trans.cols) 0)
      mCov_life mCov_trans
      = some ⟨Real.exp (vLogparams.getD 0 0), Real.exp (vLogparams.getD 1 0),
          Real.exp (vLogparams.getD 2 0), Real.exp (vLogparams.getD 3 0),
          Real.exp (vLogparams.getD 4 0),
          List.replicate vX.length (Real.exp (vLogparams.getD 1 0)),
          List.replicate vX.length (Real.exp (vLogparams.getD 4 0))⟩ := by
    rw [ggomnbd_staticcov_params, if_pos (by omega), hs1, hs2]
    dsimp only
    rw [hmvT, hmvL]
    dsimp only
    rw [hget 0 (by omega), hget 1 (by omega), hget 2 (by omega),
      hget 3 (by omega), hget 4 (by omega)]
    have hT : (matScale (-1) mCov_trans).rows.length = vX.length := by
      simpa [matScale] using hrt
    have hL : (matScale (-1) mCov_life).rows.length = vX.length := by
      simpa [matScale] using hrl
    rw [map_dot_replicate_zero_exp, map_dot_replicate_zero_exp, hT, hL]
  rw [ggomnbd_staticcov_LL_ind.eq_def, hgp]
  rw [ggomnbd_nocov_LL_ind, if_pos (by omega : 5 ≤ vLogparams.length)]

/-- C6 witness: one customer, one covariate column of each kind. -/
theorem claim_C6_witness :
    ([0, 0, 0, 0, 0] : Vec).length = 5 ∧
    (Mat.mk 1 [[2]]).rows.length = ([1] : Vec).length ∧
    ggomnbd_staticcov_LL_ind (fun _ _ _ _ _ _ _ => 1)
        ([0, 0, 0, 0, 0] ++ List.replicate ((Mat.mk 1 [[2]]).cols + (Mat.mk 1 [[3]]).cols) 0)
        [1] [0] [2] (Mat.mk 1 [[2]]) (Mat.mk 1 [[3]])
      = ggomnbd_nocov_LL_ind (fun _ _ _ _ _ _ _ => 1) [0, 0, 0, 0, 0] [1] [0] [2] := by
  refine ⟨by simp, by simp, ?_⟩
  exact claim_C6_covariate_collapse (fun _ _ _ _ _ _ _ => 1)
    [0, 0, 0, 0, 0] [1] [0] [2] (Mat.mk 1 [[2]]) (Mat.mk 1 [[3]])
    (by simp) (by decide) (by decide) (by simp) (by simp)

/-! ## Helper lemmas for C4 -/

theorem getD_take (p : Vec) (m i : ℕ) (hi : i < m) :
    (p.take m).getD i 0 = p.getD i 0 := by
  rw [List.getD_eq_getElem?_getD, List.getD_eq_getElem?_getD,
    List.getElem?_take, if_pos hi]

theorem subvec_take (p : Vec) (m first last : ℕ) (hm : m ≤ p.length)
    (hlast : last < m) :
    subvec (p.take m) first last = subvec p first last := by
  rw [subvec, subvec, List.length_take]
  by_cases hfl : first ≤ last
  · rw [if_pos ⟨hfl, by omega⟩, if_pos ⟨hfl, by omega⟩]
    rw [List.drop_take, List.take_take]
    rw [show min (last + 1 - first) (m - first) = last + 1 - first by omega]
  · rw [if_neg (fun hc => hfl hc.1), if_neg (fun hc => hfl hc.1)]

theorem staticcov_params_take (p : Vec) (mCov_life mCov_trans : Mat)
    (h : 5 + mCov_life.cols + mCov_trans.cols ≤ p.length) :
    ggomnbd_staticcov_params (p.take (5 + mCov_life.cols + mCov_trans.cols))
        mCov_life mCov_trans
      = ggomnbd_staticcov_params p mCov_life mCov_trans := by
  have hlen : (p.take (5 + mCov_life.cols + mCov_trans.cols)).length
      = 5 + mCov_life.cols + mCov_trans.cols := by
    rw [List.length_take]
    omega
  rw [ggomnbd_staticcov_params, ggomnbd_staticcov_params,
    if_pos (by omega : 5 ≤ p.length), if_pos (by rw [hlen]; omega)]
  rw [subvec_take p _ 5 (5 + mCov_life.cols - 1) (by omega) (by omega),
    subvec_take p _ (5 + mCov_life.cols)
      (5 + mCov_life.cols + mCov_trans.cols - 1) (by omega) (by omega)]
  rw [getD_take p _ 0 (by omega), getD_take p _ 1 (by omega),
    getD_take p _ 2 (by omega), getD_take p _ 3 (by omega),
    getD_take p _ 4 (by omega)]

/-- C4 counterexample: vParams has length 8 while
`5 + k_life + k_trans = 7`; the claim says the call must fail with
`InvalidArgument` before any numeric work, but the static-covariate
evaluator succeeds (returns a value), silently ignoring the extra
parameter entry. -/
theorem claim_C4_counterexample :
    (ggomnbd_staticcov_LL_ind (fun _ _ _ _ _ _ _ => 1)
      [0, 0, 0, 0, 0, 0, 0, 1] [0] [0] [1]
      (Mat.mk 1 [[1]]) (Mat.mk 1 [[1]])).isSome = true := by
  rfl

/-- C4 amended: no dimension validation is performed.  In particular a
parameter vector longer than `5 + k_life + k_trans` does not fail: the
evaluator returns exactly the result it returns on the vector truncated
to `5 + k_life + k_trans` — the extra entries are silently ignored.
(Other mismatches surface only as errors when an out-of-bounds access or
size-mismatched operation is reached during computation, not via an
upfront `InvalidArgument` check.) -/
theorem claim_C4_amended (quad : Quad) (vParams vX vT_x vT_cal : Vec)
    (mCov_life mCov_trans : Mat)
    (h : 5 + mCov_life.cols + mCov_trans.cols ≤ vParams.length) :
    ggomnbd_staticcov_LL_ind quad vParams vX vT_x vT_cal mCov_life mCov_trans
      = ggomnbd_staticcov_LL_ind quad
          (vParams.take (5 + mCov_life.cols + mCov_trans.cols))
          vX vT_x vT_cal mCov_life mCov_trans := by
  unfold ggomnbd_staticcov_LL_ind
  rw [staticcov_params_take vParams mCov_life mCov_trans h]

/-- C4 witness: the amended statement applied to the counterexample's
over-long parameter vector. -/
theorem claim_C4_witness :
    5 + (Mat.mk 1 [[1]]).cols + (Mat.mk 1 [[1]]).cols
      ≤ ([0, 0, 0, 0, 0, 0, 0, 1] : Vec).length ∧
    ggomnbd_staticcov_LL_ind (fun _ _ _ _ _ _ _ => 1)
        [0, 0, 0, 0, 0, 0, 0, 1] [0] [0] [1] (Mat.mk 1 [[1]]) (Mat.mk 1 [[1]])
      = ggomnbd_staticcov_LL_ind (fun _ _ _ _ _ _ _ => 1)
        (([0, 0, 0, 0, 0, 0, 0, 1] : Vec).take
          (5 + (Mat.mk 1 [[1]]).cols + (Mat.mk 1 [[1]]).cols))
        [0] [0] [1] (Mat.mk 1 [[1]]) (Mat.mk 1 [[1]]) := by
  refine ⟨by simp, ?_⟩
  exact claim_C4_amended (fun _ _ _ _ _ _ _ => 1)
    [0, 0, 0, 0, 0, 0, 0, 1] [0] [0] [1] (Mat.mk 1 [[1]]) (Mat.mk 1 [[1]])
    (by simp)

end

end CLVTools
